import Mathlib

/-!
Shallow embedding of the build core of `gb` (src/build.go) in Lean 4.

The file first translates the data model and the functions of
`src/build.go` into executable Lean definitions (errors are `Option Err`
with `none` for a `nil` Go error; the mutable registry owned by the build
context is threaded explicitly as a value of type `Registry`), then proves
theorems settling the claims about the specification.

Parts of the repository that the claims depend on but that are not under
`src/` (the `Package` and `Context` types, the registry operations
`targetOrMissing` / `addTargetIfMissing`, the generic future `newTarget`,
`isStale`, `cachedPackage`, `Install`, `resolvePackage`, the stdlib set)
are modelled from the spec; each such definition says so in its doc
comment.
-/

set_option autoImplicit false

namespace GbBuild

/-- Errors are modelled as strings; `none` is Go's `nil` error. -/
abbrev Err := String

/-- Modelled from the spec: a CompilationUnit (`*Package` in the source,
whose type is not under src/). Attributes per spec section 3: import path,
containing directory, scope tag, primary (Go) source files, assembly
source files, cgo files, a complete flag, an import list, a command
(isMain) flag, the extra test include path, the Go package name
(`pkg.p.Name`) and the gb package name (`pkg.Name()`), and the precomputed
validity/metadata result (`pkg.Result()`, `none` = success). -/
structure GoPackage where
  importPath : String
  dir : String
  scope : String
  goFiles : List String
  sFiles : List String
  cgoFiles : List String
  complete : Bool
  imports : List String
  isMain : Bool
  extraIncludes : String
  pName : String
  name : String
  result : Option Err
  deriving Repr, DecidableEq

/-- Modelled from the spec: the external build-context collaborator
(`*Context` in the source, not under src/): working directory, include
paths, the standard-library import set, the package-resolution
collaborator, the staleness oracle, and the outcomes of the four external
toolchain calls plus the external install step. -/
structure Context where
  workdir : String
  includePaths : List String
  stdlib : List String
  resolve : String → GoPackage
  stale : GoPackage → Bool
  gcRes : List String → String → String → String → List String → Bool → Option Err
  asmRes : String → String → String → Option Err
  packRes : List String → Option Err
  ldRes : List String → String → String → Option Err
  installRes : GoPackage → Option Err
  cachedPkgfile : GoPackage → String

/-- Modelled from the spec: the external staleness oracle `isStale`. -/
def isStale (ctx : Context) (pkg : GoPackage) : Bool :=
  ctx.stale pkg

/-- Modelled from the spec: `ResolveUnit` (`resolvePackage` in the source,
not under src/). -/
def resolvePackage (ctx : Context) (dep : String) : GoPackage :=
  ctx.resolve dep

/-- Model of `filepath.FromSlash` on a Unix platform: the separator is
already the slash, so this is the identity. -/
def fromSlash (s : String) : String := s

/-- Model of `filepath.Join` on two elements: join with a slash, skipping
empty elements (path cleaning beyond that is not modelled; no claim
depends on it). -/
def joinPath (a b : String) : String :=
  if a = "" then b else if b = "" then a else a ++ "/" ++ b

/-- Model of `filepath.Ext`: the suffix beginning at the final dot in the
final slash-separated element, or the empty string if there is none. -/
def filepathExt (p : String) : String :=
  let rev := p.data.reverse
  let suffix := rev.takeWhile (fun c => c != '.' && c != '/')
  match rev.drop suffix.length with
  | '.' :: _ => ⟨'.' :: suffix.reverse⟩
  | _ => ""

/-- Model of `filepath.Dir`: everything before the final slash, `.` when
there is no slash (path cleaning is not modelled; no claim depends on it). -/
def filepathDir (p : String) : String :=
  let rev := p.data.reverse
  let suffix := rev.takeWhile (fun c => c != '/')
  match rev.drop suffix.length with
  | '/' :: rest => ⟨rest.reverse⟩
  | _ => "."

/-- Direct translation of `stripext` (src/build.go lines 232-235). Note
the source returns `path[:len(ext)]` — the first `len(ext)` bytes of the
path — exactly as written there. -/
def stripext (path : String) : String :=
  let ext := filepathExt path
  path.take ext.length

/-- Translation of `testobjdir` (src/build.go lines 247-249). -/
def testobjdir (ctx : Context) (pkg : GoPackage) : String :=
  joinPath (joinPath ctx.workdir (fromSlash pkg.importPath)) "_test"

/-- Translation of `objdir` (src/build.go lines 237-245). -/
def objdir (ctx : Context) (pkg : GoPackage) : String :=
  if pkg.scope = "test" then
    joinPath (testobjdir ctx pkg) (filepathDir (fromSlash pkg.importPath))
  else
    joinPath ctx.workdir (filepathDir (fromSlash pkg.importPath))

/-- Translation of `(*asm).Objfile` (src/build.go lines 183-185):
`filepath.Join(workdir, importPath, stripext(sfile) + ".6")`. -/
def asmObjfile (ctx : Context) (pkg : GoPackage) (sfile : String) : String :=
  joinPath (joinPath ctx.workdir pkg.importPath) (stripext sfile ++ ".6")

/-- Translation of `(*gc).Objfile` (src/build.go lines 107-109):
`filepath.Join(objdir(pkg), pkg.Name() + ".a")`. -/
def gcObjfile (ctx : Context) (pkg : GoPackage) : String :=
  joinPath (objdir ctx pkg) (pkg.name ++ ".a")

/-- The target graph constructed by the orchestrator. Each constructor is
one kind of target built in src/build.go: the failure marker `errTarget`,
the cached-package shortcut, and the gc (Compiler), asm (Assembler), pack
(Archiver), install, and ld (Linker) stages. -/
inductive Target where
  | errTarget (msg : String)
  | cachedPackage (pkg : GoPackage)
  | gc (pkg : GoPackage) (gofiles : List String) (deps : List Target)
  | asm (pkg : GoPackage) (sfile : String)
  | pack (pkg : GoPackage) (objs : List Target)
  | install (pkg : GoPackage) (artifact : Target)
  | ld (pkg : GoPackage) (afile : Target)
  deriving Repr

instance : Inhabited Target := ⟨Target.errTarget ""⟩

/-- Modelled from the spec: the Registry, a mapping from composite key to
the Target that builds that unit, threaded explicitly. Lookup returns the
most recently stored binding for a key. -/
abbrev Registry := List (String × Target)

/-- Lookup in the registry (Go map read). -/
def lookupTarget : Registry → String → Option Target
  | [], _ => none
  | (k, t) :: rest, key => if k = key then some t else lookupTarget rest key

/-- Modelled from the spec: `Registry.GetOrCreate(key, factory)` — the
operation behind `targetOrMissing` and `addTargetIfMissing` (neither is
under src/): return the existing Target for the key, or create one via
the factory (which may itself extend the registry) and store it. -/
def getOrCreate (reg : Registry) (key : String) (factory : Registry → Target × Registry) :
    Target × Registry :=
  match lookupTarget reg key with
  | some t => (t, reg)
  | none =>
    let p := factory reg
    (p.1, (key, p.1) :: p.2)

/-- The registry key used by both `buildPackage` and `Compile`
(src/build.go lines 27 and 54): `compile:<scope>:<importpath>`. -/
def compileKey (pkg : GoPackage) : String :=
  "compile:" ++ pkg.scope ++ ":" ++ pkg.importPath

/-- Translation of the factory closure passed to `addTargetIfMissing` in
`Compile` (src/build.go lines 54-75): the staleness shortcut, the gc stage
over the unit's Go files with the dependency targets upstream, one asm
stage per assembly file, then either `Install(pkg, objs[0])` when the unit
is complete or `Install(pkg, Pack(pkg, objs...))` otherwise. The cgo
branch of the source is commented out there and so contributes nothing. -/
def compileFactory (ctx : Context) (pkg : GoPackage) (deps : List Target) : Target :=
  if !(isStale ctx pkg) then Target.cachedPackage pkg
  else
    let gofiles := pkg.goFiles
    let objs : List Target := Target.gc pkg gofiles deps :: pkg.sFiles.map (Target.asm pkg)
    if pkg.complete then Target.install pkg objs.headI
    else Target.install pkg (Target.pack pkg objs)

/-- Translation of `Compile` (src/build.go lines 49-76): fail fast on the
unit's metadata result, otherwise register the factory under the unit's
compile key. -/
def Compile (ctx : Context) (pkg : GoPackage) (deps : List Target) (reg : Registry) :
    Target × Registry :=
  match pkg.result with
  | some e => (Target.errTarget ("compile: " ++ e), reg)
  | none => getOrCreate reg (compileKey pkg) (fun r => (compileFactory ctx pkg deps, r))

mutual

/-- Translation of `buildPackage` (src/build.go lines 21-31): fail fast on
the unit's metadata result, otherwise look up / register the unit's
compile key, building the dependency targets of its imports and calling
`Compile`. The registry operation `targetOrMissing` is not under src/ and
is modelled from the spec (`GetOrCreate`), inlined here so that the
recursion is visible to Lean; `fuel` bounds the recursion depth of graph
construction (the Go source recurses unboundedly on an import cycle). -/
def buildPackage (ctx : Context) (fuel : Nat) (pkg : GoPackage) (reg : Registry) :
    Target × Registry :=
  match pkg.result with
  | some e => (Target.errTarget ("buildPackage: " ++ e), reg)
  | none =>
    match lookupTarget reg (compileKey pkg) with
    | some t => (t, reg)
    | none =>
      match fuel with
      | 0 => (Target.errTarget "buildPackage: recursion limit", reg)
      | fuel' + 1 =>
        let dr := buildDependencies ctx fuel' pkg.imports reg
        let tr := Compile ctx pkg dr.1 dr.2
        (tr.1, (compileKey pkg, tr.1) :: tr.2)
termination_by (fuel, 0)

/-- Translation of `buildDependencies` (src/build.go lines 251-262): for
each import, skip standard-library paths, resolve the package and build
it, collecting the targets in order. -/
def buildDependencies (ctx : Context) (fuel : Nat) (imports : List String) (reg : Registry) :
    List Target × Registry :=
  match imports with
  | [] => ([], reg)
  | dep :: rest =>
    if ctx.stdlib.contains dep then buildDependencies ctx fuel rest reg
    else
      let pkg := resolvePackage ctx dep
      let tr := buildPackage ctx fuel pkg reg
      let dr := buildDependencies ctx fuel rest tr.2
      (tr.1 :: dr.1, dr.2)
termination_by (fuel, imports.length)

end

/-- Translation of `buildCommand` (src/build.go lines 33-47): build the
dependency targets of the non-stdlib imports directly (the loop there is
the body of `buildDependencies`), compile, and unconditionally wrap the
compile target in a Linker stage. -/
def buildCommand (ctx : Context) (fuel : Nat) (pkg : GoPackage) (reg : Registry) :
    Target × Registry :=
  let dr := buildDependencies ctx fuel pkg.imports reg
  let cr := Compile ctx pkg dr.1 dr.2
  (Target.ld pkg cr.1, cr.2)

/-- The first failure among a list of outcomes, in list order
(`none` when every outcome is a success). -/
def firstFailure : List (Option Err) → Option Err
  | [] => none
  | some e :: _ => some e
  | none :: rest => firstFailure rest

/-- Translation of the producer `(*pack).pack` (src/build.go lines
147-160): walk the input objects in slice order, reading each one's
outcome; on the first failure deliver that error and stop (the toolchain
`Pack` call is never made, signalled by the second component `false`);
when every input succeeded, deliver the outcome of the toolchain `Pack`
call over all the collected object files (second component `true`). Each
input is its `(Result, Objfile)` pair. -/
def packProducer (packFn : List String → Option Err) (afiles : List String) :
    List (Option Err × String) → Option Err × Bool
  | [] => (packFn afiles, true)
  | (some e, _) :: _ => (some e, false)
  | (none, f) :: rest => packProducer packFn (afiles ++ [f]) rest

/-- The arguments of the external linker call made by `(*ld).link`
(src/build.go lines 209-219). -/
structure LdCall where
  includes : List String
  target : String
  afile : String
  deriving Repr, DecidableEq

/-- Translation of `(*ld).link` (src/build.go lines 209-219) up to the
external call: the output path starts from `objdir` and the Go package
name, and the test scope appends the extra include path and the `.test`
suffix. -/
def ldLinkCall (ctx : Context) (pkg : GoPackage) (pkgfile : String) : LdCall :=
  let target := joinPath (objdir ctx pkg) pkg.pName
  let includes := ctx.includePaths
  if pkg.scope = "test" then
    { includes := includes ++ [pkg.extraIncludes], target := target ++ ".test", afile := pkgfile }
  else
    { includes := includes, target := target, afile := pkgfile }

/-- The arguments of the external compiler call made by `(*gc).compile`
(src/build.go lines 96-105). -/
structure GcCall where
  includes : List String
  importpath : String
  dir : String
  objfile : String
  gofiles : List String
  complete : Bool
  deriving Repr, DecidableEq

/-- Translation of `(*gc).compile` (src/build.go lines 96-105) up to the
external call: the include paths gain the extra test include path exactly
when the unit's scope is `test`. -/
def gcCompileCall (ctx : Context) (pkg : GoPackage) (gofiles : List String) : GcCall :=
  let includes := ctx.includePaths
  { includes := if pkg.scope = "test" then includes ++ [pkg.extraIncludes] else includes
    importpath := pkg.importPath
    dir := pkg.dir
    objfile := gcObjfile ctx pkg
    gofiles := gofiles
    complete := pkg.complete }

/-- The `Objfile` method of object-producing targets (src/build.go lines
107-109 and 183-185); other targets produce no object file. -/
def Target.Objfile (ctx : Context) : Target → String
  | .gc pkg _ _ => gcObjfile ctx pkg
  | .asm pkg sfile => asmObjfile ctx pkg sfile
  | _ => ""

/-- The `Pkgfile` method of package-producing targets: `(*gc).Pkgfile`
(src/build.go lines 111-113) and `(*pack).Pkgfile` (lines 162-164) both
give `objdir/<name>.a`; for the cached package and the install wrapper —
both external collaborators not under src/ — the location is modelled
from the spec (`CachedArtifact` returns the pre-existing artifact, the
install step returns the final installed artifact location of its input). -/
def Target.Pkgfile (ctx : Context) : Target → String
  | .gc pkg _ _ => joinPath (objdir ctx pkg) (pkg.name ++ ".a")
  | .pack pkg _ => joinPath (objdir ctx pkg) (pkg.name ++ ".a")
  | .cachedPackage pkg => ctx.cachedPkgfile pkg
  | .install _ artifact => Target.Pkgfile ctx artifact
  | _ => ""

mutual

/-- Outcome of a target's `Result()` call. The generic future `newTarget`
(not under src/) is modelled from the spec: if any upstream fails, the
first such failure is the outcome and the producer never runs; otherwise
the producer's own outcome stands. The pack target's hand-rolled producer
is the translation `packProducer`; the cached package is an
already-resolved success; the install step (external) fails iff its input
artifact fails or the external install fails. -/
def Target.Result (ctx : Context) : Target → Option Err
  | .errTarget e => some e
  | .cachedPackage _ => none
  | .gc pkg gofiles deps =>
    match firstFailure (Target.resultList ctx deps) with
    | some e => some e
    | none =>
      let c := gcCompileCall ctx pkg gofiles
      ctx.gcRes c.includes c.importpath c.dir c.objfile c.gofiles c.complete
  | .asm pkg sfile => ctx.asmRes pkg.dir (asmObjfile ctx pkg sfile) (joinPath pkg.dir sfile)
  | .pack _ objs => (packProducer ctx.packRes [] (Target.packInputs ctx objs)).1
  | .install pkg artifact =>
    match Target.Result ctx artifact with
    | some e => some e
    | none => ctx.installRes pkg
  | .ld pkg afile =>
    match Target.Result ctx afile with
    | some e => some e
    | none =>
      let c := ldLinkCall ctx pkg (Target.Pkgfile ctx afile)
      ctx.ldRes c.includes c.target c.afile

/-- Outcomes of a list of targets, in order. -/
def Target.resultList (ctx : Context) : List Target → List (Option Err)
  | [] => []
  | t :: ts => Target.Result ctx t :: Target.resultList ctx ts

/-- The `(Result, Objfile)` pairs the pack producer reads from its input
object targets, in slice order. -/
def Target.packInputs (ctx : Context) : List Target → List (Option Err × String)
  | [] => []
  | t :: ts => (Target.Result ctx t, Target.Objfile ctx t) :: Target.packInputs ctx ts

end

/-- Translation of `Build` (src/build.go lines 8-19): build the package;
when that result is a success and the unit is a command, wrap the target
in a Linker stage, otherwise return it unchanged. -/
def Build (ctx : Context) (fuel : Nat) (pkg : GoPackage) (reg : Registry) :
    Target × Registry :=
  let tr := buildPackage ctx fuel pkg reg
  match Target.Result ctx tr.1 with
  | none => if pkg.isMain then (Target.ld pkg tr.1, tr.2) else tr
  | some _ => tr

mutual

/-- Number of toolchain stages (Compiler, Assembler, Archiver, Linker)
contained in a target graph; the failure marker, the cached package and
the external install step are not stages. -/
def Target.stageCount : Target → Nat
  | .errTarget _ => 0
  | .cachedPackage _ => 0
  | .gc _ _ deps => 1 + Target.stageCountList deps
  | .asm _ _ => 1
  | .pack _ objs => 1 + Target.stageCountList objs
  | .install _ artifact => Target.stageCount artifact
  | .ld _ afile => 1 + Target.stageCount afile

/-- Total stage count of a list of targets. -/
def Target.stageCountList : List Target → Nat
  | [] => 0
  | t :: ts => Target.stageCount t + Target.stageCountList ts

end

mutual

/-- Whether a target graph contains an Archiver (pack) stage. -/
def Target.hasArchiver : Target → Bool
  | .errTarget _ => false
  | .cachedPackage _ => false
  | .gc _ _ deps => Target.hasArchiverList deps
  | .asm _ _ => false
  | .pack _ _ => true
  | .install _ artifact => Target.hasArchiver artifact
  | .ld _ afile => Target.hasArchiver afile

/-- Whether any target in a list contains an Archiver (pack) stage. -/
def Target.hasArchiverList : List Target → Bool
  | [] => false
  | t :: ts => Target.hasArchiver t || Target.hasArchiverList ts

end

/-- State of the buffered channel of capacity one inside the `pack`
target (src/build.go lines 136-139), plus a count of producer runs: the
list is the channel's queued content. -/
structure PackState where
  chan : List (Option Err)
  producerInvocations : Nat
  deriving Repr, DecidableEq

/-- Model of `Pack` (src/build.go lines 166-175) after its producer
goroutine has delivered: constructing the target starts `pack.pack`
exactly once, and that one run sends its outcome — `packProducer` over
the input objects — on the channel. -/
def packSpawn (ctx : Context) (objs : List Target) : PackState :=
  { chan := [(packProducer ctx.packRes [] (Target.packInputs ctx objs)).1]
    producerInvocations := 1 }

/-- Channel receive: take the first queued value; `none` when the call
would block on an empty channel. -/
def chanRecv (c : List (Option Err)) : Option (Option Err × List (Option Err)) :=
  match c with
  | [] => none
  | v :: rest => some (v, rest)

/-- Channel send on the capacity-one buffered channel. -/
def chanSend (c : List (Option Err)) (v : Option Err) : List (Option Err) :=
  c ++ [v]

/-- Translation of `(*pack).Result` (src/build.go lines 141-145): receive
the outcome from the channel, send it back, and return it; `none` when
the call would block. -/
def packResultStep (s : PackState) : Option (Option Err × PackState) :=
  match chanRecv s.chan with
  | none => none
  | some (v, c) =>
    some (v, { chan := chanSend c v, producerInvocations := s.producerInvocations })

/-- Outcomes observed by a sequence of `n` `Result()` calls on the pack
target, together with the final state. -/
def packResultN (s : PackState) : Nat → List (Option Err) × PackState
  | 0 => ([], s)
  | n + 1 =>
    match packResultStep s with
    | none => ([], s)
    | some (v, s1) =>
      let p := packResultN s1 n
      (v :: p.1, p.2)

/-! Concrete fixtures used to evaluate theorems with hypotheses at
specific inputs. -/

/-- An assembly-only compilation unit: complete flag set, two assembly
files, valid metadata. -/
def pkgAsmOnly : GoPackage :=
  { importPath := "asmonly", dir := "d/asmonly", scope := "normal",
    goFiles := [], sFiles := ["x.s", "y.s"], cgoFiles := [],
    complete := true, imports := [], isMain := false,
    extraIncludes := "", pName := "asmonly", name := "asmonly", result := none }

/-- A command unit with valid metadata and no imports. -/
def pkgCmd : GoPackage :=
  { importPath := "cmd/app", dir := "d/cmd/app", scope := "normal",
    goFiles := ["main.go"], sFiles := [], cgoFiles := [],
    complete := false, imports := [], isMain := true,
    extraIncludes := "", pName := "main", name := "app", result := none }

/-- A test-scope unit with valid metadata. -/
def pkgTest : GoPackage :=
  { importPath := "lib", dir := "d/lib", scope := "test",
    goFiles := ["lib_test.go"], sFiles := [], cgoFiles := [],
    complete := false, imports := [], isMain := false,
    extraIncludes := "w/lib/_test", pName := "lib", name := "lib", result := none }

/-- A unit whose metadata resolution failed. -/
def pkgBad : GoPackage :=
  { importPath := "broken", dir := "d/broken", scope := "normal",
    goFiles := [], sFiles := [], cgoFiles := [],
    complete := false, imports := [], isMain := false,
    extraIncludes := "", pName := "broken", name := "broken",
    result := some "no such package" }

/-- A context whose staleness oracle reports every unit stale. -/
def ctxStale : Context :=
  { workdir := "w", includePaths := ["inc"], stdlib := ["fmt"],
    resolve := fun _ => pkgAsmOnly, stale := fun _ => true,
    gcRes := fun _ _ _ _ _ _ => none, asmRes := fun _ _ _ => none,
    packRes := fun _ => none, ldRes := fun _ _ _ => none,
    installRes := fun _ => none, cachedPkgfile := fun _ => "cached.a" }

/-- A context whose staleness oracle reports every unit fresh. -/
def ctxFresh : Context :=
  { workdir := "w", includePaths := ["inc"], stdlib := ["fmt"],
    resolve := fun _ => pkgAsmOnly, stale := fun _ => false,
    gcRes := fun _ _ _ _ _ _ => none, asmRes := fun _ _ _ => none,
    packRes := fun _ => none, ldRes := fun _ _ _ => none,
    installRes := fun _ => none, cachedPkgfile := fun _ => "cached.a" }

/-! Helper lemmas. -/

theorem lookupTarget_cons_self (r : Registry) (k : String) (t : Target) :
    lookupTarget ((k, t) :: r) k = some t := by
  simp [lookupTarget]

theorem getOrCreate_idem (reg : Registry) (key : String)
    (f g : Registry → Target × Registry) :
    getOrCreate (getOrCreate reg key f).2 key g = getOrCreate reg key f := by
  unfold getOrCreate
  cases hl : lookupTarget reg key with
  | some t => simp [hl]
  | none => simp [hl, lookupTarget_cons_self]

theorem buildPackage_lookup_found (ctx : Context) (fuel : Nat) (pkg : GoPackage)
    (reg : Registry) (t : Target) (h : pkg.result = none)
    (hl : lookupTarget reg (compileKey pkg) = some t) :
    buildPackage ctx fuel pkg reg = (t, reg) := by
  cases fuel with
  | zero => simp [buildPackage, h, hl]
  | succ m => simp [buildPackage, h, hl]

theorem buildPackage_registers (ctx : Context) (n : Nat) (pkg : GoPackage)
    (reg : Registry) (h : pkg.result = none)
    (hl : lookupTarget reg (compileKey pkg) = none) :
    ∃ t r, buildPackage ctx (n + 1) pkg reg = (t, (compileKey pkg, t) :: r) := by
  simp only [buildPackage, h, hl]
  exact ⟨_, _, rfl⟩

theorem packProducer_spec (packFn : List String → Option Err) (acc : List String)
    (inputs : List (Option Err × String)) :
    (∀ e, firstFailure (inputs.map Prod.fst) = some e →
      packProducer packFn acc inputs = (some e, false)) ∧
    (firstFailure (inputs.map Prod.fst) = none →
      packProducer packFn acc inputs = (packFn (acc ++ inputs.map Prod.snd), true)) := by
  induction inputs generalizing acc with
  | nil => simp [packProducer, firstFailure]
  | cons hd tl ih =>
    obtain ⟨o, file⟩ := hd
    cases o with
    | some e => simp [packProducer, firstFailure]
    | none =>
      have := ih (acc ++ [file])
      simpa [packProducer, firstFailure] using this

/-- C1 counterexample: an assembly-only unit with the complete flag set
and two assembly files produces three objects (one gc, two asm), yet the
stale-path factory of `Compile` skips the Archiver-stage and installs
`objs[0]` directly — refuting the claim that an Archiver-stage is still
constructed whenever more than one object is produced. -/
theorem compile_complete_multiobj_counterexample :
    pkgAsmOnly.complete = true ∧
    (Target.gc pkgAsmOnly pkgAsmOnly.goFiles [] ::
      pkgAsmOnly.sFiles.map (Target.asm pkgAsmOnly)).length = 3 ∧
    compileFactory ctxStale pkgAsmOnly [] =
      Target.install pkgAsmOnly (Target.gc pkgAsmOnly pkgAsmOnly.goFiles []) ∧
    Target.hasArchiver (compileFactory ctxStale pkgAsmOnly []) = false :=
  ⟨rfl, rfl, rfl, rfl⟩

/-- C1 amended: for every stale unit with valid metadata and an
unregistered key, `Compile` runs its factory; the factory skips the
Archiver-stage and passes `objs[0]` (the Compiler-stage object) directly
to the install step whenever the complete flag is set — regardless of how
many objects were produced — and constructs an Archiver-stage combining
all objects exactly when the complete flag is not set. -/
theorem compile_archive_iff_not_complete (ctx : Context) (pkg : GoPackage)
    (deps : List Target) (reg : Registry) (h : pkg.result = none)
    (hs : isStale ctx pkg = true)
    (hr : lookupTarget reg (compileKey pkg) = none) :
    Compile ctx pkg deps reg =
      (compileFactory ctx pkg deps, (compileKey pkg, compileFactory ctx pkg deps) :: reg) ∧
    (pkg.complete = true →
      compileFactory ctx pkg deps = Target.install pkg (Target.gc pkg pkg.goFiles deps) ∧
      Target.hasArchiver (compileFactory ctx pkg deps) = Target.hasArchiverList deps) ∧
    (pkg.complete = false →
      compileFactory ctx pkg deps =
        Target.install pkg (Target.pack pkg
          (Target.gc pkg pkg.goFiles deps :: pkg.sFiles.map (Target.asm pkg)))) := by
  refine ⟨by simp [Compile, h, getOrCreate, hr], ?_, ?_⟩
  · intro hc
    have hfac : compileFactory ctx pkg deps =
        Target.install pkg (Target.gc pkg pkg.goFiles deps) := by
      simp [compileFactory, hs, hc]
    refine ⟨hfac, ?_⟩
    rw [hfac]
    simp [Target.hasArchiver]
  · intro hc
    simp [compileFactory, hs, hc]

/-- C1 amended witness: the amended statement evaluated on the concrete
assembly-only unit. -/
theorem compile_archive_iff_not_complete_witness :
    compileFactory ctxStale pkgAsmOnly [] =
      Target.install pkgAsmOnly (Target.gc pkgAsmOnly pkgAsmOnly.goFiles []) :=
  ((compile_archive_iff_not_complete ctxStale pkgAsmOnly [] [] rfl rfl rfl).2.1 rfl).1

/-- C2: the Archiver-stage producer reads its inputs' outcomes in
input-slice order; if any input failed, the delivered outcome is the
first failing input's error and the toolchain Pack call is never made
(`false`), and only when every input succeeded is the toolchain Pack call
made, over all the inputs' object files (`true`). -/
theorem pack_first_failure (packFn : List String → Option Err)
    (inputs : List (Option Err × String)) :
    (∀ e, firstFailure (inputs.map Prod.fst) = some e →
      packProducer packFn [] inputs = (some e, false)) ∧
    (firstFailure (inputs.map Prod.fst) = none →
      packProducer packFn [] inputs = (packFn (inputs.map Prod.snd), true)) := by
  simpa using packProducer_spec packFn [] inputs

/-- C2 witness: the first of two failing inputs is the delivered error
and the Pack call is suppressed. -/
theorem pack_first_failure_witness :
    packProducer (fun fs => some (String.intercalate " " fs)) []
        [(none, "a.a"), (some "boom", "b.6"), (some "late", "c.6")] =
      (some "boom", false) :=
  (pack_first_failure (fun fs => some (String.intercalate " " fs))
    [(none, "a.a"), (some "boom", "b.6"), (some "late", "c.6")]).1 "boom" rfl

/-- C3: for every key, at most one Target is ever created in the
Registry: a second `GetOrCreate` request for the same key returns the
first Target and leaves the registry unchanged whatever factory it
carries, and repeated calls of `Compile` (with any dependency list) or
`buildPackage` (with any fuel) on the same unit return the first Target
with the registry unchanged, so the stage work for the unit is
constructed exactly once. -/
theorem registry_single_future (reg : Registry) (key : String)
    (f g : Registry → Target × Registry) (ctx : Context) (pkg : GoPackage)
    (deps deps' : List Target) (n fuel' : Nat) (h : pkg.result = none) :
    getOrCreate (getOrCreate reg key f).2 key g = getOrCreate reg key f ∧
    Compile ctx pkg deps' (Compile ctx pkg deps reg).2 = Compile ctx pkg deps reg ∧
    buildPackage ctx fuel' pkg (buildPackage ctx (n + 1) pkg reg).2 =
      buildPackage ctx (n + 1) pkg reg := by
  refine ⟨getOrCreate_idem reg key f g, ?_, ?_⟩
  · simp only [Compile, h]
    exact getOrCreate_idem reg (compileKey pkg) _ _
  · cases hl : lookupTarget reg (compileKey pkg) with
    | some t =>
      rw [buildPackage_lookup_found ctx (n + 1) pkg reg t h hl,
        buildPackage_lookup_found ctx fuel' pkg reg t h hl]
    | none =>
      obtain ⟨t, r, hbp⟩ := buildPackage_registers ctx n pkg reg h hl
      rw [hbp, buildPackage_lookup_found ctx fuel' pkg _ t h (lookupTarget_cons_self _ _ _)]

/-- C3 witness: the single-creation property evaluated at a concrete key
and factories. -/
theorem registry_single_future_witness :
    getOrCreate (getOrCreate [] "k" (fun r => (Target.errTarget "t", r))).2 "k"
        (fun r => (Target.errTarget "u", r)) =
      getOrCreate [] "k" (fun r => (Target.errTarget "t", r)) :=
  (registry_single_future [] "k" (fun r => (Target.errTarget "t", r))
    (fun r => (Target.errTarget "u", r)) ctxStale pkgAsmOnly [] [] 0 0 rfl).1

/-- C4: on the pack target's channel-based cell, any number of `Result()`
calls after the producer delivered never block, all return the identical
outcome delivered by the producer (the `packProducer` run over the
inputs), the cell state is unchanged by every call, and the producer ran
exactly once. -/
theorem pack_result_idempotent (ctx : Context) (objs : List Target) (n : Nat) :
    packResultN (packSpawn ctx objs) n =
      (List.replicate n ((packProducer ctx.packRes [] (Target.packInputs ctx objs)).1),
        packSpawn ctx objs) ∧
    (packSpawn ctx objs).producerInvocations = 1 := by
  refine ⟨?_, rfl⟩
  induction n with
  | zero => simp [packResultN]
  | succ n ih =>
    have hstep : packResultStep (packSpawn ctx objs) =
        some ((packProducer ctx.packRes [] (Target.packInputs ctx objs)).1,
          packSpawn ctx objs) := rfl
    simp [packResultN, hstep, ih, List.replicate_succ]

/-- C5: for every unit whose precomputed metadata result is a failure,
`buildPackage` and `Compile` return an already-failed failure-marker
target wrapping that error immediately, with the registry untouched and
with zero Compiler-, Assembler-, Archiver- or Linker-stages constructed. -/
theorem failure_marker_short_circuit (ctx : Context) (fuel : Nat) (pkg : GoPackage)
    (reg : Registry) (deps : List Target) (e : Err) (h : pkg.result = some e) :
    buildPackage ctx fuel pkg reg = (Target.errTarget ("buildPackage: " ++ e), reg) ∧
    Compile ctx pkg deps reg = (Target.errTarget ("compile: " ++ e), reg) ∧
    Target.stageCount (Target.errTarget ("buildPackage: " ++ e)) = 0 ∧
    Target.stageCount (Target.errTarget ("compile: " ++ e)) = 0 := by
  refine ⟨?_, ?_, rfl, rfl⟩
  · cases fuel with
    | zero => simp [buildPackage, h]
    | succ m => simp [buildPackage, h]
  · simp [Compile, h]

/-- C5 witness: the failure marker produced for the concrete unit whose
resolution failed. -/
theorem failure_marker_short_circuit_witness :
    buildPackage ctxStale 3 pkgBad [] =
      (Target.errTarget ("buildPackage: " ++ "no such package"), []) ∧
    Compile ctxStale pkgBad [] [] =
      (Target.errTarget ("compile: " ++ "no such package"), []) :=
  ⟨(failure_marker_short_circuit ctxStale 3 pkgBad [] [] "no such package" rfl).1,
    (failure_marker_short_circuit ctxStale 3 pkgBad [] [] "no such package" rfl).2.1⟩

/-- C6: for every unit with valid metadata that the staleness oracle
reports fresh, the compile factory is the cached-package target — no
Compiler-, Assembler- or Archiver-stage is constructed (its stage count
is zero) — and `Compile` returns it directly as the unit's artifact. -/
theorem stale_shortcut (ctx : Context) (pkg : GoPackage) (deps : List Target)
    (reg : Registry) (h : pkg.result = none) (hs : isStale ctx pkg = false)
    (hr : lookupTarget reg (compileKey pkg) = none) :
    compileFactory ctx pkg deps = Target.cachedPackage pkg ∧
    Compile ctx pkg deps reg =
      (Target.cachedPackage pkg, (compileKey pkg, Target.cachedPackage pkg) :: reg) ∧
    Target.stageCount (Target.cachedPackage pkg) = 0 := by
  have h1 : compileFactory ctx pkg deps = Target.cachedPackage pkg := by
    simp [compileFactory, hs]
  exact ⟨h1, by simp [Compile, h, getOrCreate, hr, h1], rfl⟩

/-- C6 witness: the stale shortcut evaluated on a concrete fresh unit. -/
theorem stale_shortcut_witness :
    compileFactory ctxFresh pkgCmd [] = Target.cachedPackage pkgCmd :=
  (stale_shortcut ctxFresh pkgCmd [] [] rfl rfl rfl).1

/-- C7: `Build` returns a Linker-stage wrapped around the unit's artifact
target exactly when the package-build target's result is a success and
the unit is a command; in every other case it returns the package-build
target (and its registry) unchanged, constructing no Linker-stage. -/
theorem build_links_iff_success_main (ctx : Context) (fuel : Nat) (pkg : GoPackage)
    (reg : Registry) :
    (Target.Result ctx (buildPackage ctx fuel pkg reg).1 = none ∧ pkg.isMain = true →
      Build ctx fuel pkg reg =
        (Target.ld pkg (buildPackage ctx fuel pkg reg).1,
          (buildPackage ctx fuel pkg reg).2)) ∧
    (¬(Target.Result ctx (buildPackage ctx fuel pkg reg).1 = none ∧ pkg.isMain = true) →
      Build ctx fuel pkg reg = buildPackage ctx fuel pkg reg) := by
  constructor
  · rintro ⟨h1, h2⟩
    simp [Build, h1, h2]
  · intro hcon
    cases hres : Target.Result ctx (buildPackage ctx fuel pkg reg).1 with
    | some e => simp [Build, hres]
    | none =>
      have h2 : pkg.isMain = false := by
        cases hm : pkg.isMain with
        | false => rfl
        | true => exact absurd ⟨hres, hm⟩ hcon
      simp [Build, hres, h2]

/-- C7 witness: a fresh command unit builds to the cached package and
`Build` appends the Linker-stage. -/
theorem build_links_iff_success_main_witness :
    Build ctxFresh 1 pkgCmd [] =
      (Target.ld pkgCmd (buildPackage ctxFresh 1 pkgCmd []).1,
        (buildPackage ctxFresh 1 pkgCmd []).2) := by
  have hbp : buildPackage ctxFresh 1 pkgCmd [] =
      (Target.cachedPackage pkgCmd,
        [(compileKey pkgCmd, Target.cachedPackage pkgCmd),
          (compileKey pkgCmd, Target.cachedPackage pkgCmd)]) := by
    simp [buildPackage, buildDependencies, Compile, getOrCreate, lookupTarget,
      compileFactory, isStale, ctxFresh, pkgCmd]
  exact (build_links_iff_success_main ctxFresh 1 pkgCmd []).1 ⟨by rw [hbp]; rfl, rfl⟩

/-- C8 counterexample: on a valid, fresh (not stale) command unit with no
imports, `buildCommand` returns a Linker-stage over the cached-package
target: the cache short-circuit inside `Compile` is taken — not bypassed
— and no Archiver-stage-or-passthrough (install) is appended below the
Linker-stage. -/
theorem buildCommand_cache_counterexample :
    buildCommand ctxFresh 1 pkgCmd [] =
      (Target.ld pkgCmd (Target.cachedPackage pkgCmd),
        [(compileKey pkgCmd, Target.cachedPackage pkgCmd)]) ∧
    Target.hasArchiver (buildCommand ctxFresh 1 pkgCmd []).1 = false := by
  have h1 : buildCommand ctxFresh 1 pkgCmd [] =
      (Target.ld pkgCmd (Target.cachedPackage pkgCmd),
        [(compileKey pkgCmd, Target.cachedPackage pkgCmd)]) := by
    simp [buildCommand, buildDependencies, Compile, getOrCreate, lookupTarget,
      compileFactory, isStale, ctxFresh, pkgCmd]
  exact ⟨h1, by rw [h1]; simp [Target.hasArchiver]⟩

/-- C8 amended: `buildCommand` builds the dependency targets of the
unit's non-stdlib imports directly and always appends a Linker-stage
downstream of the compile artifact, unconditionally — with no
command-vs-package branch and no success check, so even a metadata
failure is linked over — but compilation goes through `Compile`, which
still performs the registry lookup and the staleness short-circuit: for a
valid fresh unit whose key is unregistered, the linked artifact is the
cached package and no Archiver-stage-or-passthrough is constructed. -/
theorem buildCommand_always_links (ctx : Context) (fuel : Nat) (pkg : GoPackage)
    (reg : Registry) :
    (buildCommand ctx fuel pkg reg).1 =
      Target.ld pkg (Compile ctx pkg (buildDependencies ctx fuel pkg.imports reg).1
        (buildDependencies ctx fuel pkg.imports reg).2).1 ∧
    (∀ e, pkg.result = some e →
      (buildCommand ctx fuel pkg reg).1 =
        Target.ld pkg (Target.errTarget ("compile: " ++ e))) ∧
    (pkg.result = none → isStale ctx pkg = false →
      lookupTarget (buildDependencies ctx fuel pkg.imports reg).2 (compileKey pkg) = none →
      (buildCommand ctx fuel pkg reg).1 = Target.ld pkg (Target.cachedPackage pkg)) := by
  refine ⟨rfl, ?_, ?_⟩
  · intro e he
    simp [buildCommand, Compile, he]
  · intro h1 h2 h3
    simp [buildCommand, Compile, h1, getOrCreate, h3, compileFactory, h2]

/-- C8 amended witness: the amended statement evaluated on the concrete
fresh command unit. -/
theorem buildCommand_always_links_witness :
    (buildCommand ctxFresh 1 pkgCmd []).1 =
      Target.ld pkgCmd (Target.cachedPackage pkgCmd) :=
  (buildCommand_always_links ctxFresh 1 pkgCmd []).2.2 rfl rfl
    (by simp [pkgCmd, buildDependencies, lookupTarget])

/-- C9: for a test-scope unit, the Linker-stage output path is the
unsuffixed target path (objdir joined with the Go package name) with
`.test` appended, and both the Linker-stage and the Compiler-stage pass
the extra test include path after the context include paths; any other
scope gets the unsuffixed path and the plain context include paths. -/
theorem test_scope_paths (ctx : Context) (pkg : GoPackage) (pkgfile : String)
    (gofiles : List String) :
    (pkg.scope = "test" →
      (ldLinkCall ctx pkg pkgfile).target = joinPath (objdir ctx pkg) pkg.pName ++ ".test" ∧
      (ldLinkCall ctx pkg pkgfile).includes = ctx.includePaths ++ [pkg.extraIncludes] ∧
      (gcCompileCall ctx pkg gofiles).includes = ctx.includePaths ++ [pkg.extraIncludes]) ∧
    (pkg.scope ≠ "test" →
      (ldLinkCall ctx pkg pkgfile).target = joinPath (objdir ctx pkg) pkg.pName ∧
      (ldLinkCall ctx pkg pkgfile).includes = ctx.includePaths ∧
      (gcCompileCall ctx pkg gofiles).includes = ctx.includePaths) := by
  constructor
  · intro h
    simp [ldLinkCall, gcCompileCall, h]
  · intro h
    simp [ldLinkCall, gcCompileCall, h]

/-- C9 witness: the test-scope paths evaluated on the concrete test
unit. -/
theorem test_scope_paths_witness :
    (ldLinkCall ctxFresh pkgTest "w/lib/_test/lib.a").target =
      joinPath (objdir ctxFresh pkgTest) pkgTest.pName ++ ".test" ∧
    (ldLinkCall ctxFresh pkgTest "w/lib/_test/lib.a").includes =
      ctxFresh.includePaths ++ [pkgTest.extraIncludes] ∧
    (gcCompileCall ctxFresh pkgTest pkgTest.goFiles).includes =
      ctxFresh.includePaths ++ [pkgTest.extraIncludes] :=
  (test_scope_paths ctxFresh pkgTest "w/lib/_test/lib.a" pkgTest.goFiles).1 rfl

/-- C10: evaluating the code at the failing input `"foo.s"`: the source's
`stripext` returns `path[:len(ext)]` — the first `len(ext)` bytes — so the
Assembler-stage object file is `<workdir>/<importpath>/fo.6`, not the
claimed `foo.6` obtained by stripping the extension. -/
theorem stripext_truncates_eval :
    filepathExt "foo.s" = ".s" ∧
    stripext "foo.s" = "fo" ∧
    asmObjfile ctxStale pkgAsmOnly "foo.s" = "w/asmonly/fo.6" :=
  ⟨rfl, rfl, rfl⟩

end GbBuild
